import Mathlib

/-!
Shallow embedding of `ayiosbot/rpc` (src/src/index.ts): an opcode-multiplexed
RPC layer over a Redis-style pub/sub transport.

Modelling conventions:
* JavaScript/JSON values are modelled by `JVal`.  Numbers are modelled as
  integers (`Int`): every opcode in the source is an integer, and the claims
  under verification only involve integer-valued numbers.  Consequently the
  JS `ToNumber` coercion on strings is modelled for integer-valued decimal
  strings (optional whitespace, optional sign, digits); strings that denote
  non-integer or non-decimal numbers are mapped to `none` (NaN-like).
* The listener's `_callbacks` JS `Map` is modelled as an insertion-ordered
  list of entries with a `deleted` tombstone flag.  This mirrors ECMAScript
  `Map` iteration semantics: `forEach` walks entries in insertion order,
  entries deleted before being visited are skipped, and entries added during
  iteration are visited.  `randomUUID` is modelled by a fresh-name counter.
* Callbacks are defunctionalised as `CbAct`: a callback may do nothing,
  throw, register further listeners or remove listeners — the operations a
  callback can perform on the listener under the claims in question.
* The `message`-event dispatch in the `RPCListener` constructor is modelled
  by `RPCListener.handleMessage`.  Since a callback that keeps registering
  new matching callbacks makes the live `forEach` iteration of the source
  diverge, the loop carries explicit fuel; running out of fuel is the
  distinguished outcome `DispatchOutcome.fuelOut` (never reached by any
  theorem below).  A thrown JS exception (from `JSON.parse`, a `null`
  property access, or a callback) is the outcome `DispatchOutcome.threw`,
  with all state mutations performed before the throw retained, as in JS.
* `JSON.parse` of the raw channel content is out of scope per the spec
  (generic codec); an inbound message carries `Option JVal`: `none` models
  raw content on which `JSON.parse` throws, `some v` the parsed value.
* The Redis connection is modelled by `RedisConn`: an identity plus the
  transport's response function for `publish`; a `RedisState` logs the
  publish calls actually issued, so "exactly one publish" is observable.
-/

/-- JavaScript values as far as this embedding needs them: the JSON values
(`JSON.parse` output) plus `undefined` (result of reading an absent
property). `jobj` models parsed objects, whose keys are unique. -/
inductive JVal where
  | jnull
  | jundefined
  | jbool (b : Bool)
  | jnum (n : Int)
  | jstr (s : String)
  | jarr (xs : List JVal)
  | jobj (fields : List (String × JVal))

/-- Whitespace accepted by JS `ToNumber` when trimming a string (the ASCII
subset; sufficient for the integer-valued strings this model covers). -/
def isJsSpace (c : Char) : Bool :=
  c = ' ' || c = '\t' || c = '\n' || c = '\r' || c = '\x0b' || c = '\x0c'

/-- Value of a nonempty all-digit character list, `none` otherwise. -/
def digitsToNat : List Char → Option Nat
  | [] => none
  | cs =>
    cs.foldlM (fun n c => if c.isDigit then some (n * 10 + (c.toNat - 48)) else none) 0

/-- JS `ToNumber` on a string, restricted to integer results: trim
whitespace, empty string is `0`, otherwise an optional sign followed by
decimal digits; anything else is `none` (NaN). -/
def jsStrToInt (cs : List Char) : Option Int :=
  let t := ((cs.dropWhile isJsSpace).reverse.dropWhile isJsSpace).reverse
  match t with
  | [] => some 0
  | '+' :: rest => (digitsToNat rest).map Int.ofNat
  | '-' :: rest => (digitsToNat rest).map (fun n => -(n : Int))
  | _ => (digitsToNat t).map Int.ofNat

/-- JS `ToNumber` of a string value. -/
def jsToNumber (s : String) : Option Int :=
  jsStrToInt s.data

mutual
/-- JS `ToString` of a value as used by `Array.prototype.join`: `null` and
`undefined` become the empty string inside a join. -/
def jvalJoinElem : JVal → String
  | .jnull => ""
  | .jundefined => ""
  | .jbool b => if b then "true" else "false"
  | .jnum n => n.repr
  | .jstr s => s
  | .jarr xs => jvalJoinList xs
  | .jobj _ => "[object Object]"

/-- Rendering of `Array.prototype.toString`, i.e. `join(",")`. -/
def jvalJoinList : List JVal → String
  | [] => ""
  | [x] => jvalJoinElem x
  | x :: y :: xs => jvalJoinElem x ++ "," ++ jvalJoinList (y :: xs)
end

/-- JS loose equality `n == v` between a number `n` and an arbitrary value
`v`, as used by the source's dispatch comparison `data[0] == content.op`:
numbers compare numerically, strings and booleans are coerced with
`ToNumber`, `null`/`undefined` never equal a number, arrays are coerced via
`ToPrimitive` (their `join`), plain objects coerce to `"[object Object]"`
hence never equal a number. -/
def looseEqNum (n : Int) : JVal → Bool
  | .jnull => false
  | .jundefined => false
  | .jbool b => n = (if b then 1 else 0)
  | .jnum m => n = m
  | .jstr s => jsToNumber s = some n
  | .jarr xs => jsToNumber (jvalJoinList xs) = some n
  | .jobj _ => false

/-- JS property read `v[k]` for the keys `"op"`/`"d"` used by the source:
throws a `TypeError` on `null`/`undefined`, looks the key up on an object
(absent key gives `undefined`), and gives `undefined` on other values. -/
def getProp : JVal → String → Except Unit JVal
  | .jnull, _ => .error ()
  | .jundefined, _ => .error ()
  | .jobj fields, k => .ok (((fields.find? (fun kv => kv.1 = k)).map (fun kv => kv.2)).getD .jundefined)
  | .jbool _, _ => .ok .jundefined
  | .jnum _, _ => .ok .jundefined
  | .jstr _, _ => .ok .jundefined
  | .jarr _, _ => .ok .jundefined

/-- Hexadecimal digit, lower case, as printed by `JSON.stringify` escapes. -/
def hexDigit (n : Nat) : Char :=
  if n < 10 then Char.ofNat (48 + n) else Char.ofNat (97 + (n - 10))

/-- Escape of one character inside a `JSON.stringify` string literal. -/
def escJsonChar (c : Char) : String :=
  if c = '"' then "\\\""
  else if c = '\\' then "\\\\"
  else if c = '\x08' then "\\b"
  else if c = '\t' then "\\t"
  else if c = '\n' then "\\n"
  else if c = '\x0c' then "\\f"
  else if c = '\r' then "\\r"
  else if c.toNat < 32 then "\\u00" ++ String.mk [hexDigit (c.toNat / 16), hexDigit (c.toNat % 16)]
  else String.mk [c]

/-- Serialisation of a string value, as `JSON.stringify` renders it. -/
def escJsonString (s : String) : String :=
  "\"" ++ String.join (s.data.map escJsonChar) ++ "\""

mutual
/-- Serialisation mirroring `JSON.stringify`.  The value `undefined` only occurs inside arrays in this model's
uses, where `JSON.stringify` prints `null`; object fields holding
`undefined` are dropped by `jsonFieldPieces`. -/
def jsonStringify : JVal → String
  | .jnull => "null"
  | .jundefined => "null"
  | .jbool b => if b then "true" else "false"
  | .jnum n => n.repr
  | .jstr s => escJsonString s
  | .jarr xs => "[" ++ String.intercalate "," (jsonArrPieces xs) ++ "]"
  | .jobj fields => "\x7b" ++ String.intercalate "," (jsonFieldPieces fields) ++ "\x7d"

/-- Serialised array elements. -/
def jsonArrPieces : List JVal → List String
  | [] => []
  | x :: xs => jsonStringify x :: jsonArrPieces xs

/-- Serialised object fields; fields whose value is `undefined` are dropped,
as `JSON.stringify` does. -/
def jsonFieldPieces : List (String × JVal) → List String
  | [] => []
  | (_, .jundefined) :: rest => jsonFieldPieces rest
  | (k, v) :: rest => (escJsonString k ++ ":" ++ jsonStringify v) :: jsonFieldPieces rest
end

/-- Defunctionalised callback bodies: what a registered callback may do to
its owning listener when invoked (`src` callbacks close over the listener
and may call `onMessage`/`removeListener` or throw). -/
inductive CbAct where
  | nop
  | throwErr
  | addL (code : Int) (act : CbAct)
  | remL (target : String ⊕ Int)
  | seq (a b : CbAct)
  deriving DecidableEq, Repr

/-- A callback that neither mutates the registry nor throws. -/
def CbAct.harmless : CbAct → Bool
  | .nop => true
  | .seq a b => a.harmless && b.harmless
  | _ => false

/-- One entry of the listener's `_callbacks` `Map`: key (`randomUUID`
result), value pair `[code, callback]`, plus the tombstone flag of the
`Map`-iteration model. -/
structure CbEntry where
  uuid : String
  code : Int
  act : CbAct
  deriving DecidableEq, Repr

structure CbSlot where
  entry : CbEntry
  deleted : Bool
  deriving DecidableEq, Repr

/-- The `_callbacks` `Map` of an `RPCListener`, with the fresh-name counter
modelling `randomUUID`. -/
structure CallbackMap where
  entries : List CbSlot
  fresh : Nat
  deriving DecidableEq, Repr

/-- Entries currently present in the `Map` (not tombstoned). -/
def liveEntries (m : CallbackMap) : List CbSlot :=
  m.entries.filter (fun e => !e.deleted)

/-- Model of `RPCListener.onMessage`: `const uuid = randomUUID(); this._callbacks.set(uuid, [code, callback]); return uuid;`. -/
def cbOnMessage (m : CallbackMap) (code : Int) (act : CbAct) : String × CallbackMap :=
  let uuid := "u" ++ Nat.repr m.fresh
  (uuid, { entries := m.entries ++ [⟨⟨uuid, code, act⟩, false⟩], fresh := m.fresh + 1 })

/-- Model of `RPCListener.removeListener`: a string target deletes that key (no-op
when absent); a number target deletes every entry whose code strictly
equals it (`===`).  The source's final `throw` branch is unreachable here
because the target is typed `String ⊕ Int`. -/
def cbRemove (m : CallbackMap) (target : String ⊕ Int) : CallbackMap :=
  match target with
  | .inl uuid =>
    { m with entries := m.entries.map (fun e => if e.entry.uuid = uuid then { e with deleted := true } else e) }
  | .inr code =>
    { m with entries := m.entries.map (fun e => if e.entry.code = code then { e with deleted := true } else e) }

/-- Run one callback body against the listener's map.  The `Bool` is the
thrown-exception flag; mutations made before a throw are kept (JS
exceptions do not roll back state). -/
def runCb : CbAct → CallbackMap → CallbackMap × Bool
  | .nop, m => (m, false)
  | .throwErr, m => (m, true)
  | .addL code act, m => ((cbOnMessage m code act).2, false)
  | .remL target, m => (cbRemove m target, false)
  | .seq a b, m =>
    let r := runCb a m
    if r.2 then r else runCb b r.1

/-- Outcome of one dispatch of an inbound message. -/
inductive DispatchOutcome where
  | done
  | threw
  | fuelOut
  deriving DecidableEq, Repr

/-- Result of one dispatch: the map afterwards, the invocations performed
(registration key together with the payload the callback received, in
order), and how the dispatch ended. -/
structure DispatchOut where
  st : CallbackMap
  invoked : List (String × JVal)
  outcome : DispatchOutcome

/-- The source's `this._callbacks.forEach(data => { if (data[0] == content.op) data[1](content.d); })`
under live `Map` iteration: walk slots by position, skipping tombstones;
at each live slot read `content.op`, compare with loose `==`, and on a
match read `content.d` and invoke the callback.  A throw (from a property
read on `null`, or from the callback) propagates immediately.  `fuel`
bounds the walk because callbacks may keep appending matching entries, in
which case the source diverges. -/
def dispatchLoop (content : JVal) : Nat → Nat → CallbackMap → List (String × JVal) → DispatchOut
  | 0, _, m, inv => ⟨m, inv, .fuelOut⟩
  | fuel + 1, i, m, inv =>
    match m.entries[i]? with
    | none => ⟨m, inv, .done⟩
    | some e =>
      if e.deleted then dispatchLoop content fuel (i + 1) m inv
      else
        match getProp content "op" with
        | .error _ => ⟨m, inv, .threw⟩
        | .ok opv =>
          if looseEqNum e.entry.code opv then
            match getProp content "d" with
            | .error _ => ⟨m, inv, .threw⟩
            | .ok dv =>
              let r := runCb e.entry.act m
              if r.2 then ⟨r.1, inv ++ [(e.entry.uuid, dv)], .threw⟩
              else dispatchLoop content fuel (i + 1) r.1 (inv ++ [(e.entry.uuid, dv)])
          else dispatchLoop content fuel (i + 1) m inv

/-- Transport-level publish failure. -/
structure TransportError where
  msg : String
  deriving DecidableEq, Repr

/-- A Redis connection: an identity and the transport's behaviour on
`publish` (receiver count or failure). -/
structure RedisConn where
  connId : Nat
  pubBehavior : String → String → Except TransportError Nat

/-- Log of the publish calls issued on a connection. -/
structure RedisState where
  calls : List (String × String)

/-- Model of `redis.publish(channel, payload)`: exactly one outbound call, logged,
with the transport's response returned unchanged. -/
def redisPublish (r : RedisConn) (st : RedisState) (channel payload : String) :
    RedisState × Except TransportError Nat :=
  ({ calls := st.calls ++ [(channel, payload)] }, r.pubBehavior channel payload)

/-- The `RPCListener` object: bound channel, its connection, and the
`_callbacks` map.  The constructor's `subscribe` call is transport-side
and out of scope. -/
structure RPCListener where
  channel : String
  redis : RedisConn
  cbs : CallbackMap

/-- Constructor `new RPCListener(channel, redis)` with an empty registry. -/
def mkRPCListener (channel : String) (redis : RedisConn) : RPCListener :=
  ⟨channel, redis, ⟨[], 0⟩⟩

def RPCListener.onMessage (L : RPCListener) (code : Int) (act : CbAct) : String × RPCListener :=
  let r := cbOnMessage L.cbs code act
  (r.1, { L with cbs := r.2 })

def RPCListener.removeListener (L : RPCListener) (target : String ⊕ Int) : RPCListener :=
  { L with cbs := cbRemove L.cbs target }

/-- The constructor's `message`-event handler: ignore other channels
(`rawChannel !== channel`), then `JSON.parse` the raw content (`none`
models content on which the parse throws, uncaught) and run the dispatch
loop over the live registry. -/
def RPCListener.handleMessage (fuel : Nat) (L : RPCListener) (rawChannel : String)
    (raw : Option JVal) : RPCListener × List (String × JVal) × DispatchOutcome :=
  if rawChannel ≠ L.channel then (L, [], .done)
  else
    match raw with
    | none => (L, [], .threw)
    | some content =>
      let out := dispatchLoop content fuel 0 L.cbs []
      ({ L with cbs := out.st }, out.invoked, out.outcome)

/-- The `RPCExecutor` object: bound channel and its connection. -/
structure RPCExecutor where
  channel : String
  redis : RedisConn

/-- Model of `RPCExecutor.sendMessage`: `return this.redis.publish(this.channel, JSON.stringify({ op: code, d: data }));`. -/
def RPCExecutor.sendMessage (ex : RPCExecutor) (st : RedisState) (code : Int) (data : JVal) :
    RedisState × Except TransportError Nat :=
  redisPublish ex.redis st ex.channel (jsonStringify (.jobj [("op", .jnum code), ("d", data)]))

/-- The `RPCMulti` facade. -/
structure RPCMulti where
  executor : RPCExecutor
  listener : RPCListener

/-- Constructor `new RPCMulti(channel, redisExecutor, redisListener?)`: the listener
uses the optionally supplied second connection, else
`redisExecutor.duplicate()`.  The transport's `duplicate` capability is the
parameter `dup`. -/
def mkRPCMulti (dup : RedisConn → RedisConn) (channel : String) (redisExecutor : RedisConn)
    (redisListener : Option RedisConn) : RPCMulti :=
  { executor := ⟨channel, redisExecutor⟩,
    listener := mkRPCListener channel (match redisListener with | some r => r | none => dup redisExecutor) }

def RPCMulti.onMessage (m : RPCMulti) (code : Int) (act : CbAct) : String × RPCMulti :=
  let r := m.listener.onMessage code act
  (r.1, { m with listener := r.2 })

def RPCMulti.removeListener (m : RPCMulti) (target : String ⊕ Int) : RPCMulti :=
  { m with listener := m.listener.removeListener target }

def RPCMulti.sendMessage (m : RPCMulti) (st : RedisState) (code : Int) (data : JVal) :
    RedisState × Except TransportError Nat :=
  m.executor.sendMessage st code data

/-- A concrete connection for closed instances of the theorems below. -/
def testConn : RedisConn :=
  ⟨0, fun _ _ => .ok 0⟩

/-- A concrete registry with two registrations sharing opcode 1 and one on
opcode 2, used to instantiate the removal theorems. -/
def mW6 : CallbackMap :=
  ⟨[⟨⟨"a", 1, .nop⟩, false⟩, ⟨⟨"b", 2, .nop⟩, false⟩, ⟨⟨"c", 1, .nop⟩, false⟩], 3⟩

/-- A concrete registry with two sibling registrations on opcode 3. -/
def mW7 : CallbackMap :=
  ⟨[⟨⟨"p", 3, .nop⟩, false⟩, ⟨⟨"q", 3, .nop⟩, false⟩], 2⟩
/-- A harmless callback leaves the map unchanged and does not throw. -/
theorem runCb_harmless (a : CbAct) (m : CallbackMap) (h : a.harmless = true) :
    runCb a m = (m, false) := by
  induction a generalizing m with
  | nop => rfl
  | throwErr => simp [CbAct.harmless] at h
  | addL c a iha => simp [CbAct.harmless] at h
  | remL t => simp [CbAct.harmless] at h
  | seq a b iha ihb =>
    simp [CbAct.harmless] at h
    simp [runCb, iha m h.1, ihb m h.2]

/-- Characterisation of the dispatch loop when every matching live callback
is harmless: the walk terminates, leaves the map unchanged, and invokes
exactly the live matching entries from position `i` on, in order, each with
the envelope's `d` payload. -/
theorem dispatchLoop_harmless (content opv dv : JVal)
    (hop : getProp content "op" = .ok opv) (hd : getProp content "d" = .ok dv) :
    ∀ (fuel i : Nat) (m : CallbackMap) (inv : List (String × JVal)),
    (∀ e ∈ m.entries, e.deleted = false → looseEqNum e.entry.code opv = true →
      e.entry.act.harmless = true) →
    m.entries.length - i < fuel →
    dispatchLoop content fuel i m inv =
      ⟨m, inv ++ ((m.entries.drop i).filter
          (fun e => !e.deleted && looseEqNum e.entry.code opv)).map
          (fun e => (e.entry.uuid, dv)), .done⟩ := by
  intro fuel
  induction fuel with
  | zero => intro i m inv _ hfuel; omega
  | succ fuel ih =>
    intro i m inv hh hfuel
    cases hgi : m.entries[i]? with
    | none =>
      have hlen : m.entries.length ≤ i := by
        by_contra hlt
        push_neg at hlt
        rw [List.getElem?_eq_getElem hlt] at hgi
        cases hgi
      rw [List.drop_eq_nil_of_le hlen]
      simp [dispatchLoop, hgi]
    | some e =>
      obtain ⟨hilt, hie⟩ := List.getElem?_eq_some.mp hgi
      have hmem : e ∈ m.entries := hie ▸ m.entries.getElem_mem hilt
      have hdrop : m.entries.drop i = e :: m.entries.drop (i + 1) := by
        rw [List.drop_eq_getElem_cons hilt, hie]
      rw [hdrop]
      cases hdel : e.deleted with
      | true =>
        simp only [dispatchLoop, hgi, hdel, if_true]
        rw [ih (i + 1) m inv hh (by omega)]
        simp [List.filter_cons, hdel]
      | false =>
        cases hmatch : looseEqNum e.entry.code opv with
        | false =>
          simp only [dispatchLoop, hgi, hdel, Bool.false_eq_true, if_false, hop, hmatch]
          rw [ih (i + 1) m inv hh (by omega)]
          simp [List.filter_cons, hdel, hmatch]
        | true =>
          have hrun := runCb_harmless e.entry.act m (hh e hmem hdel hmatch)
          simp only [dispatchLoop, hgi, hdel, Bool.false_eq_true, if_false, hop, hmatch,
            if_true, hd, hrun]
          rw [ih (i + 1) m (inv ++ [(e.entry.uuid, dv)]) hh (by omega)]
          simp [List.filter_cons, hdel, hmatch]

/-- Dispatch depends on the envelope only through the `op` comparison and
the `d` payload: two contents with pointwise equal loose matches and equal
payload fields dispatch identically. -/
theorem dispatchLoop_congr (c1 c2 o1 o2 : JVal)
    (h1 : getProp c1 "op" = .ok o1) (h2 : getProp c2 "op" = .ok o2)
    (hd : getProp c1 "d" = getProp c2 "d")
    (heq : ∀ k : Int, looseEqNum k o1 = looseEqNum k o2) :
    ∀ (fuel i : Nat) (m : CallbackMap) (inv : List (String × JVal)),
    dispatchLoop c1 fuel i m inv = dispatchLoop c2 fuel i m inv := by
  intro fuel
  induction fuel with
  | zero => intro i m inv; rfl
  | succ fuel ih =>
    intro i m inv
    simp only [dispatchLoop]
    cases hgi : m.entries[i]? with
    | none => rfl
    | some e =>
      cases hdel : e.deleted with
      | true => simp [hdel, ih]
      | false =>
        simp only [hdel, Bool.false_eq_true, if_false, h1, h2, heq e.entry.code, hd]
        cases hmatch : looseEqNum e.entry.code o2 with
        | false => simp [ih]
        | true =>
          cases hgd : getProp c2 "d" with
          | error u => rfl
          | ok dv =>
            simp only []
            cases hr : runCb e.entry.act m with
            | mk m2 tf => cases tf <;> simp [ih]

/-- Marking every slot with a given code deleted, then restricting to live
slots, equals restricting the original list to live slots of other codes. -/
theorem live_after_remove_code (l : List CbSlot) (n : Int) :
    ((l.map (fun e => if e.entry.code = n then { e with deleted := true } else e)).filter
      (fun e => !e.deleted)) =
    l.filter (fun e => !e.deleted && !(e.entry.code == n)) := by
  induction l with
  | nil => rfl
  | cons e l ih =>
    by_cases hc : e.entry.code = n
    · cases hd : e.deleted <;> simp [List.filter_cons, hc, hd, ih]
    · cases hd : e.deleted <;> simp [List.filter_cons, hc, hd, ih]

/-- Marking the slot with a given uuid deleted, then restricting to live
slots, equals restricting the original list to live slots of other uuids. -/
theorem live_after_remove_uuid (l : List CbSlot) (u : String) :
    ((l.map (fun e => if e.entry.uuid = u then { e with deleted := true } else e)).filter
      (fun e => !e.deleted)) =
    l.filter (fun e => !e.deleted && !(e.entry.uuid == u)) := by
  induction l with
  | nil => rfl
  | cons e l ih =>
    by_cases hc : e.entry.uuid = u
    · cases hd : e.deleted <;> simp [List.filter_cons, hc, hd, ih]
    · cases hd : e.deleted <;> simp [List.filter_cons, hc, hd, ih]

/-- Same as `live_after_remove_uuid` with an additional opcode-match
restriction, in the exact shape produced by `dispatchLoop_harmless`. -/
theorem matchfilter_after_remove_uuid (l : List CbSlot) (u : String) (opv : JVal) :
    ((l.map (fun e => if e.entry.uuid = u then { e with deleted := true } else e)).filter
      (fun e => !e.deleted && looseEqNum e.entry.code opv)) =
    l.filter (fun e => !e.deleted && !(e.entry.uuid == u) && looseEqNum e.entry.code opv) := by
  induction l with
  | nil => rfl
  | cons e l ih =>
    by_cases hc : e.entry.uuid = u
    · cases hd : e.deleted <;> simp [List.filter_cons, hc, hd, ih]
    · cases hd : e.deleted <;>
        cases hm : looseEqNum e.entry.code opv <;> simp [List.filter_cons, hc, hd, hm, ih]

/-- C1 (counterexample): the claim's "if and only if the registration's
opcode equals the decoded envelope's op" is false as stated: an inbound
message on the bound channel whose decoded `op` is the string `"5"` invokes
a callback registered for the integer opcode `5`, although the string
`"5"` is not equal to the number `5`. -/
theorem c1_strict_equality_counterexample :
    (RPCListener.handleMessage 4 ⟨"ch", testConn, ⟨[⟨⟨"u0", 5, .nop⟩, false⟩], 1⟩⟩ "ch"
        (some (.jobj [("op", .jstr "5"), ("d", .jnull)]))).2 =
      ([("u0", .jnull)], .done)
    ∧ JVal.jstr "5" ≠ JVal.jnum 5 :=
  ⟨rfl, fun h => JVal.noConfusion h⟩

/-- C1 (amended): provided every registered callback matching the message
neither mutates the registry nor throws, a message on the bound channel
invokes exactly the live registrations whose opcode loosely equals
(JS `==`, with `ToNumber` coercion of strings/booleans) the decoded `op`,
in registration order, each exactly once, with the envelope's `d` payload;
a message on any other channel invokes no callback and the registry is
unchanged in both cases. -/
theorem c1_dispatch_characterisation (ch : String) (conn : RedisConn) (m : CallbackMap)
    (fuel : Nat) (content opv dv : JVal)
    (hop : getProp content "op" = .ok opv) (hd : getProp content "d" = .ok dv)
    (hpure : ∀ e ∈ m.entries, e.deleted = false → looseEqNum e.entry.code opv = true →
      e.entry.act.harmless = true)
    (hfuel : m.entries.length < fuel) :
    (∀ rawCh, rawCh ≠ ch →
      RPCListener.handleMessage fuel ⟨ch, conn, m⟩ rawCh (some content) =
        (⟨ch, conn, m⟩, [], .done))
    ∧ RPCListener.handleMessage fuel ⟨ch, conn, m⟩ ch (some content) =
        (⟨ch, conn, m⟩,
          (m.entries.filter (fun e => !e.deleted && looseEqNum e.entry.code opv)).map
            (fun e => (e.entry.uuid, dv)),
          .done)
    ∧ ((m.entries.map (fun e => e.entry.uuid)).Nodup →
        ((m.entries.filter (fun e => !e.deleted && looseEqNum e.entry.code opv)).map
          (fun e => e.entry.uuid)).Nodup) := by
  refine ⟨fun rawCh hne => by simp [RPCListener.handleMessage, hne], ?_, ?_⟩
  · have hD := dispatchLoop_harmless content opv dv hop hd fuel 0 m [] hpure (by omega)
    simp [RPCListener.handleMessage, hD]
  · intro hnodup
    exact List.Nodup.sublist
      (List.Sublist.map (fun e => e.entry.uuid) (List.filter_sublist m.entries)) hnodup

/-- C1 (witness): a concrete registration on opcode 5 receives a message
with integer op 5 exactly once with its payload. -/
theorem c1_dispatch_characterisation_witness :
    RPCListener.handleMessage 2 ⟨"c", testConn, ⟨[⟨⟨"u0", 5, .nop⟩, false⟩], 1⟩⟩ "c"
      (some (.jobj [("op", .jnum 5), ("d", .jstr "x")])) =
    (⟨"c", testConn, ⟨[⟨⟨"u0", 5, .nop⟩, false⟩], 1⟩⟩, [("u0", .jstr "x")], .done) := by
  have h := (c1_dispatch_characterisation "c" testConn ⟨[⟨⟨"u0", 5, .nop⟩, false⟩], 1⟩ 2
    (.jobj [("op", .jnum 5), ("d", .jstr "x")]) (.jnum 5) (.jstr "x") rfl rfl
    (by decide) (by decide)).2.1
  exact h

/-- C2 (code bug evidence): dispatch iterates the live `Map`, not a
snapshot.  First scenario: the only registration's callback registers a
fresh callback on the same opcode, and that new registration is invoked in
the very same dispatch.  Second scenario: the first registration's callback
removes the second, not-yet-visited registration, which is then not invoked
in that dispatch.  Under the claimed snapshot-at-dispatch-start semantics
the first dispatch would invoke only `u0` and the second would invoke both
`v0` and `v1`. -/
theorem c2_live_iteration_observed :
    (RPCListener.handleMessage 10
        ⟨"ch", testConn, ⟨[⟨⟨"u0", 1, .addL 1 .nop⟩, false⟩], 1⟩⟩ "ch"
        (some (.jobj [("op", .jnum 1), ("d", .jnull)]))).2 =
      ([("u0", .jnull), ("u1", .jnull)], .done)
    ∧ (RPCListener.handleMessage 10
        ⟨"ch", testConn,
          ⟨[⟨⟨"v0", 1, .remL (.inl "v1")⟩, false⟩, ⟨⟨"v1", 1, .nop⟩, false⟩], 2⟩⟩ "ch"
        (some (.jobj [("op", .jnum 1), ("d", .jnull)]))).2 =
      ([("v0", .jnull)], .done) :=
  ⟨rfl, rfl⟩

/-- C3 (code bug evidence): an inbound message on the bound channel whose
raw content is not decodable (`JSON.parse` throws) makes the dispatch
handler itself throw — the exception is uncaught — while invoking no
callback and leaving the registry unchanged; no diagnostic is produced. -/
theorem c3_malformed_content_throws :
    RPCListener.handleMessage 10 ⟨"ch", testConn, ⟨[⟨⟨"u0", 5, .nop⟩, false⟩], 1⟩⟩ "ch" none =
      (⟨"ch", testConn, ⟨[⟨⟨"u0", 5, .nop⟩, false⟩], 1⟩⟩, [], .threw) :=
  rfl

/-- C4 (code bug evidence): with two registrations matching opcode 1, the
first callback's throw propagates out of the dispatch (and hence to the
transport's delivery mechanism) and the second matching callback is never
invoked. -/
theorem c4_throwing_callback_aborts_fanout :
    (RPCListener.handleMessage 10
        ⟨"ch", testConn,
          ⟨[⟨⟨"w0", 1, .throwErr⟩, false⟩, ⟨⟨"w1", 1, .nop⟩, false⟩], 2⟩⟩ "ch"
        (some (.jobj [("op", .jnum 1), ("d", .jnull)]))).2 =
      ([("w0", .jnull)], .threw) :=
  rfl

/-- C5 (code bug evidence): a message whose decoded `op` is the string
`"7"` is not rejected as malformed: no decode error is raised, the op is
silently coerced by the loose `==` comparison, and the callback registered
for the integer opcode 7 is invoked. -/
theorem c5_string_opcode_not_rejected :
    (RPCListener.handleMessage 10 ⟨"ch", testConn, ⟨[⟨⟨"r7", 7, .nop⟩, false⟩], 1⟩⟩ "ch"
        (some (.jobj [("op", .jstr "7"), ("d", .jnull)]))).2 =
      ([("r7", .jnull)], .done) :=
  rfl

/-- C6: `removeListener` with an opcode tombstones every registration with
that opcode and no other, and a subsequent dispatch of a message with that
integer op invokes no callback and changes nothing. -/
theorem c6_remove_by_opcode (m : CallbackMap) (n : Int) (ch : String) (conn : RedisConn)
    (fuel : Nat) (dv : JVal) (hfuel : m.entries.length < fuel) :
    liveEntries (cbRemove m (.inr n)) =
      m.entries.filter (fun e => !e.deleted && !(e.entry.code == n))
    ∧ RPCListener.handleMessage fuel ⟨ch, conn, cbRemove m (.inr n)⟩ ch
        (some (.jobj [("op", .jnum n), ("d", dv)])) =
      (⟨ch, conn, cbRemove m (.inr n)⟩, [], .done) := by
  have hkey : ∀ e ∈ (cbRemove m (.inr n)).entries,
      ¬((!e.deleted && looseEqNum e.entry.code (.jnum n)) = true) := by
    intro e he
    simp only [cbRemove, List.mem_map] at he
    obtain ⟨e0, he0, rfl⟩ := he
    by_cases hc : e0.entry.code = n
    · simp [hc]
    · simp [hc, looseEqNum]
  have hnil : (cbRemove m (.inr n)).entries.filter
      (fun e => !e.deleted && looseEqNum e.entry.code (.jnum n)) = [] :=
    List.filter_eq_nil_iff.mpr hkey
  have hpure : ∀ e ∈ (cbRemove m (.inr n)).entries, e.deleted = false →
      looseEqNum e.entry.code (.jnum n) = true → e.entry.act.harmless = true := by
    intro e he hdel hmatch
    exact absurd (by simp [hdel, hmatch]) (hkey e he)
  have hlen : (cbRemove m (.inr n)).entries.length - 0 < fuel := by
    simp [cbRemove]; omega
  have hD := dispatchLoop_harmless (.jobj [("op", .jnum n), ("d", dv)]) (.jnum n) dv rfl rfl
    fuel 0 (cbRemove m (.inr n)) [] hpure hlen
  constructor
  · simp [liveEntries, cbRemove, live_after_remove_code]
  · simp [RPCListener.handleMessage, hD, hnil]

/-- C6 (witness): removing opcode 1 from a registry with opcodes 1, 2, 1
keeps exactly the opcode-2 registration, and a message with op 1 then
invokes nothing. -/
theorem c6_remove_by_opcode_witness :
    liveEntries (cbRemove mW6 (.inr 1)) = [⟨⟨"b", 2, .nop⟩, false⟩]
    ∧ RPCListener.handleMessage 4 ⟨"ch", testConn, cbRemove mW6 (.inr 1)⟩ "ch"
        (some (.jobj [("op", .jnum 1), ("d", .jnull)])) =
      (⟨"ch", testConn, cbRemove mW6 (.inr 1)⟩, [], .done) := by
  have h := c6_remove_by_opcode mW6 1 "ch" testConn 4 .jnull (by decide)
  exact ⟨h.1.trans (by decide), h.2⟩

/-- Removing a uuid absent from every slot changes nothing. -/
theorem map_mark_uuid_id (l : List CbSlot) (u : String) (h : ∀ e ∈ l, e.entry.uuid ≠ u) :
    l.map (fun e => if e.entry.uuid = u then { e with deleted := true } else e) = l := by
  induction l with
  | nil => rfl
  | cons e l ih =>
    simp [h e (List.mem_cons_self e l), ih (fun x hx => h x (List.mem_cons_of_mem _ hx))]

/-- Removing an opcode absent from every slot changes nothing. -/
theorem map_mark_code_id (l : List CbSlot) (n : Int) (h : ∀ e ∈ l, e.entry.code ≠ n) :
    l.map (fun e => if e.entry.code = n then { e with deleted := true } else e) = l := by
  induction l with
  | nil => rfl
  | cons e l ih =>
    simp [h e (List.mem_cons_self e l), ih (fun x hx => h x (List.mem_cons_of_mem _ hx))]

/-- C7: `removeListener` with a registration identifier tombstones exactly
the registration carrying that uuid, leaving every other slot unchanged
(sibling registrations on the same opcode stay live); removal with an
unknown uuid or an unknown opcode is a no-op returning the map unchanged;
and a dispatch after removing a uuid invokes exactly the remaining live
matching registrations. -/
theorem c7_remove_by_id (m : CallbackMap) (u : String) :
    liveEntries (cbRemove m (.inl u)) =
      m.entries.filter (fun e => !e.deleted && !(e.entry.uuid == u))
    ∧ ((∀ e ∈ m.entries, e.entry.uuid ≠ u) → cbRemove m (.inl u) = m)
    ∧ (∀ n : Int, (∀ e ∈ m.entries, e.entry.code ≠ n) → cbRemove m (.inr n) = m)
    ∧ ∀ (ch : String) (conn : RedisConn) (fuel : Nat) (content opv dv : JVal),
        getProp content "op" = .ok opv → getProp content "d" = .ok dv →
        (∀ e ∈ m.entries, e.deleted = false → looseEqNum e.entry.code opv = true →
          e.entry.act.harmless = true) →
        m.entries.length < fuel →
        RPCListener.handleMessage fuel ⟨ch, conn, cbRemove m (.inl u)⟩ ch (some content) =
          (⟨ch, conn, cbRemove m (.inl u)⟩,
            (m.entries.filter
              (fun e => !e.deleted && !(e.entry.uuid == u) && looseEqNum e.entry.code opv)).map
              (fun e => (e.entry.uuid, dv)),
            .done) := by
  refine ⟨?_, ?_, ?_, ?_⟩
  · simp [liveEntries, cbRemove, live_after_remove_uuid]
  · intro h
    simp [cbRemove, map_mark_uuid_id m.entries u h]
  · intro n h
    simp [cbRemove, map_mark_code_id m.entries n h]
  · intro ch conn fuel content opv dv hop hd hpure hfuel
    have hpure' : ∀ e ∈ (cbRemove m (.inl u)).entries, e.deleted = false →
        looseEqNum e.entry.code opv = true → e.entry.act.harmless = true := by
      intro e he hdel hmatch
      simp only [cbRemove, List.mem_map] at he
      obtain ⟨e0, he0, rfl⟩ := he
      by_cases hc : e0.entry.uuid = u
      · simp [hc] at hdel
      · simp only [hc, if_false] at hdel hmatch ⊢
        exact hpure e0 he0 hdel hmatch
    have hlen : (cbRemove m (.inl u)).entries.length - 0 < fuel := by
      simp [cbRemove]; omega
    have hD := dispatchLoop_harmless content opv dv hop hd fuel 0 (cbRemove m (.inl u)) []
      hpure' hlen
    have hfilter := matchfilter_after_remove_uuid m.entries u opv
    simp only [cbRemove] at hD hfilter ⊢
    simp [RPCListener.handleMessage, hD, hfilter]

/-- C7 (witness): with two sibling registrations on opcode 3, removing an
unknown uuid or unknown opcode is a no-op, and after removing `"p"` a
message with op 3 still reaches the sibling `"q"` exactly once. -/
theorem c7_remove_by_id_witness :
    cbRemove mW7 (.inl "zz") = mW7
    ∧ cbRemove mW7 (.inr 9) = mW7
    ∧ RPCListener.handleMessage 3 ⟨"ch", testConn, cbRemove mW7 (.inl "p")⟩ "ch"
        (some (.jobj [("op", .jnum 3), ("d", .jnull)])) =
      (⟨"ch", testConn, cbRemove mW7 (.inl "p")⟩, [("q", .jnull)], .done) := by
  refine ⟨(c7_remove_by_id mW7 "zz").2.1 (by decide),
    (c7_remove_by_id mW7 "zz").2.2.1 9 (by decide), ?_⟩
  have h := (c7_remove_by_id mW7 "p").2.2.2 "ch" testConn 3
    (.jobj [("op", .jnum 3), ("d", .jnull)]) (.jnum 3) .jnull rfl rfl (by decide) (by decide)
  exact h.trans (by rfl)

/-- C8: `sendMessage(op, data)` issues exactly one transport publish, on
the executor's bound channel, whose payload is the serialised wire envelope
with fields `op` and `d` in that order, and returns the transport's
response (receiver count or `TransportError`) unchanged; it touches no
other state. -/
theorem c8_send_message_single_publish (ex : RPCExecutor) (st : RedisState) (code : Int)
    (data : JVal) :
    (ex.sendMessage st code data).1.calls =
      st.calls ++ [(ex.channel, jsonStringify (.jobj [("op", .jnum code), ("d", data)]))]
    ∧ (ex.sendMessage st code data).2 =
      ex.redis.pubBehavior ex.channel (jsonStringify (.jobj [("op", .jnum code), ("d", data)])) :=
  ⟨rfl, rfl⟩

/-- C9: the facade's `onMessage`, `removeListener` and `sendMessage` return
exactly what the underlying listener's/executor's operation returns on the
same arguments and touch nothing else; both delegates are bound to the
facade's channel name; a supplied second connection is used for the
listener as-is, and when omitted the listener gets a duplicate of the
executor's connection instead of the executor's connection itself. -/
theorem c9_multi_facade_delegation (dup : RedisConn → RedisConn) (ch : String)
    (re rl : RedisConn) (m : RPCMulti) (code : Int) (act : CbAct) (target : String ⊕ Int)
    (st : RedisState) (data : JVal) :
    (mkRPCMulti dup ch re (some rl)).listener.redis = rl
    ∧ (mkRPCMulti dup ch re none).listener.redis = dup re
    ∧ (∀ orl : Option RedisConn, (mkRPCMulti dup ch re orl).executor.redis = re
        ∧ (mkRPCMulti dup ch re orl).executor.channel = ch
        ∧ (mkRPCMulti dup ch re orl).listener.channel = ch)
    ∧ (m.onMessage code act).1 = (m.listener.onMessage code act).1
    ∧ (m.onMessage code act).2.listener = (m.listener.onMessage code act).2
    ∧ (m.onMessage code act).2.executor = m.executor
    ∧ (m.removeListener target).listener = m.listener.removeListener target
    ∧ (m.removeListener target).executor = m.executor
    ∧ m.sendMessage st code data = m.executor.sendMessage st code data :=
  ⟨rfl, rfl, fun orl => ⟨by cases orl <;> rfl, by cases orl <;> rfl, by cases orl <;> rfl⟩,
    rfl, rfl, rfl, rfl, rfl, rfl⟩

/-- C10: opcode matching is loose: a message whose decoded `op` is a string
that `ToNumber`-coerces to the integer `n` (in particular the decimal
string form of `n`) dispatches exactly as the message with integer op `n`
does — same invocations, same registry effects, same outcome. -/
theorem c10_numeric_string_opcode (ch : String) (conn : RedisConn) (m : CallbackMap)
    (fuel : Nat) (s : String) (n : Int) (v : JVal) (hs : jsToNumber s = some n) :
    RPCListener.handleMessage fuel ⟨ch, conn, m⟩ ch
      (some (.jobj [("op", .jstr s), ("d", v)])) =
    RPCListener.handleMessage fuel ⟨ch, conn, m⟩ ch
      (some (.jobj [("op", .jnum n), ("d", v)])) := by
  have heq : ∀ k : Int, looseEqNum k (.jstr s) = looseEqNum k (.jnum n) := by
    intro k
    simp [looseEqNum, hs, eq_comm]
  have hD := dispatchLoop_congr (.jobj [("op", .jstr s), ("d", v)])
    (.jobj [("op", .jnum n), ("d", v)]) (.jstr s) (.jnum n) rfl rfl rfl heq fuel 0 m []
  simp [RPCListener.handleMessage, hD]

/-- C10 (witness): with a registration on opcode 5, the message with op
`"5"` dispatches exactly as the message with op `5`. -/
theorem c10_numeric_string_opcode_witness :
    RPCListener.handleMessage 3 ⟨"c", testConn, ⟨[⟨⟨"u0", 5, .nop⟩, false⟩], 1⟩⟩ "c"
      (some (.jobj [("op", .jstr "5"), ("d", .jnull)])) =
    RPCListener.handleMessage 3 ⟨"c", testConn, ⟨[⟨⟨"u0", 5, .nop⟩, false⟩], 1⟩⟩ "c"
      (some (.jobj [("op", .jnum 5), ("d", .jnull)])) :=
  c10_numeric_string_opcode "c" testConn ⟨[⟨⟨"u0", 5, .nop⟩, false⟩], 1⟩ 3 "5" 5 .jnull
    (by decide)
